import Mathlib

/-!
Verification of the newsletter-RAG repository's content-extraction and
pipeline logic.  Python strings are modelled as `List Char`; Python regular
expressions are modelled by a small backtracking matcher (`RE`, `reM`)
compiled by hand from the regex literals in the source; Python `dict`
mappings with optional keys are modelled with `Option` fields.  Machine
integers do not overflow in the modelled code (timestamps are arbitrary
precision in Python), so `Nat` is used directly.
-/

/-- Python strings as lists of characters. -/
abbrev Str := List Char

/-- Characters stripped by Python `str.strip()` (ASCII whitespace; the
modelled inputs are ASCII). -/
def pyWs (c : Char) : Bool :=
  c = ' ' || c = '\t' || c = '\n' || c = '\r' || c = Char.ofNat 11 || c = Char.ofNat 12

/-- Python `s.strip()`. -/
def pyStripWs (s : Str) : Str :=
  ((s.dropWhile pyWs).reverse.dropWhile pyWs).reverse

/-- Python `s.strip('"')`. -/
def pyStripQuotes (s : Str) : Str :=
  ((s.dropWhile (· = '"')).reverse.dropWhile (· = '"')).reverse

/-- Python `s.lower()` (ASCII case folding; the modelled inputs are ASCII). -/
def pyLower (s : Str) : Str := s.map Char.toLower

/-- Python `s.split(c)[0]`: the text before the first occurrence of `c`. -/
def beforeChar (c : Char) (s : Str) : Str := s.takeWhile (· != c)

/-- Python `s.split(c)[1]`: the text between the first and second occurrence
of `c` is `beforeChar c (afterChar c s)`; `afterChar` is everything after the
first occurrence. -/
def afterChar (c : Char) (s : Str) : Str := (s.dropWhile (· != c)).drop 1

/-- `parse_sender` from `src/newsletter_interface/email_parser.py` lines 8-16
(identical to `src/gmail_fetcher/email_parser.py` lines 7-14):
name is `sender.split('<')[0].strip().strip('"')`, email is
`sender.split('<')[1].split('>')[0].strip()` when both brackets occur,
else both components are the raw string. -/
def parse_sender (sender : Str) : Str × Str :=
  if '<' ∈ sender ∧ '>' ∈ sender then
    (pyStripQuotes (pyStripWs (beforeChar '<' sender)),
     pyStripWs (beforeChar '>' (beforeChar '<' (afterChar '<' sender))))
  else
    (sender, sender)

/-!
## A backtracking regex matcher

The regex literals in `email_parser.py` use only: literal text, the
`https?` optional character, greedy `+`/`*` over a character class, the
lazy `.*?`, alternation of literal-and-lazy sequences, and one capturing
group of shape `([^X]+)`.  `reM` is a CPS backtracking matcher over that
fragment, reproducing Python `re` priority order (greedy tries longer
first, lazy tries shorter first, alternation tries the left branch first,
positions are tried left to right).
-/

inductive RE where
  | eps : RE
  | lit : Str → RE
  | litCI : Str → RE
  | cls : (Char → Bool) → RE
  | plusG : (Char → Bool) → RE
  | starG : (Char → Bool) → RE
  | starL : (Char → Bool) → RE
  | seq : RE → RE → RE
  | alt : RE → RE → RE
  | opt : Char → RE

/-- Remainders `s.drop n, s.drop (n-1), ..., s.drop lo` (longest consumed
first): the greedy order for `*`/`+` over a character class. -/
def descDrops (s : Str) (n lo : Nat) : List Str :=
  (List.range' lo (n + 1 - lo)).reverse.map (fun i => s.drop i)

/-- Remainders `s.drop 0, ..., s.drop n` (shortest consumed first): the lazy
order for `.*?`. -/
def ascDrops (s : Str) (n : Nat) : List Str :=
  (List.range (n + 1)).map (fun i => s.drop i)

/-- First candidate remainder on which the continuation succeeds. -/
def firstSome {α : Type} (k : Str → Option α) : List Str → Option α
  | [] => none
  | s :: rest =>
    match k s with
    | some v => some v
    | none => firstSome k rest

/-- The CPS matcher: `reM r s k` matches `r` against a prefix of `s` and
runs `k` on the remainder, backtracking in Python `re` priority order. -/
def reM {α : Type} : RE → Str → (Str → Option α) → Option α
  | .eps, s, k => k s
  | .lit l, s, k => if l.isPrefixOf s then k (s.drop l.length) else none
  | .litCI l, s, k =>
      if pyLower (s.take l.length) = pyLower l ∧ l.length ≤ s.length then
        k (s.drop l.length)
      else none
  | .cls p, s, k =>
      match s with
      | [] => none
      | c :: r => if p c then k r else none
  | .plusG p, s, k => firstSome k (descDrops s (s.takeWhile p).length 1)
  | .starG p, s, k => firstSome k (descDrops s (s.takeWhile p).length 0)
  | .starL p, s, k => firstSome k (ascDrops s (s.takeWhile p).length)
  | .seq a b, s, k => reM a s (fun r => reM b r k)
  | .alt a b, s, k =>
      match reM a s k with
      | some v => some v
      | none => reM b s k
  | .opt c, s, k =>
      match s with
      | [] => k s
      | c' :: r =>
        if c' = c then
          match k r with
          | some v => some v
          | none => k s
        else k s

/-- Remainder of the input after the highest-priority match of `r` at the
start of `s` (`none` if `r` does not match at this position). -/
def reMatchEnd (r : RE) (s : Str) : Option Str := reM r s some

/-- Python `re.findall` for a group-less pattern: non-overlapping matches,
scanning positions left to right, advancing past each match (by one
character after an empty match). -/
def reFindAllGo (r : RE) : Nat → Str → List Str
  | 0, _ => []
  | _ + 1, [] =>
    match reMatchEnd r [] with
    | some _ => [[]]
    | none => []
  | fuel + 1, c :: rest =>
    match reMatchEnd r (c :: rest) with
    | some rem =>
      let m := (c :: rest).take ((c :: rest).length - rem.length)
      if m.isEmpty then m :: reFindAllGo r fuel rest
      else m :: reFindAllGo r fuel rem
    | none => reFindAllGo r fuel rest

def reFindAll (r : RE) (s : Str) : List Str := reFindAllGo r (s.length + 1) s

/-- Match `a`, then a capturing group `([^X]+)` given by the class `p`
(greedy), then `b`, at the start of `s`; returns the captured text. -/
def reCapAt (a : RE) (p : Char → Bool) (b : RE) (s : Str) : Option Str :=
  reM a s (fun r1 =>
    let run := (r1.takeWhile p).length
    let rec capLoop : Nat → Option Str
      | 0 => none
      | i + 1 =>
        match (reM b (r1.drop (i + 1)) some : Option Str) with
        | some _ => some (r1.take (i + 1))
        | none => capLoop i
    capLoop run)

/-- Python `re.search` for a pattern `A([^X]+)B` with one group: the group
text of the leftmost match. -/
def reSearchCapGo (a : RE) (p : Char → Bool) (b : RE) : Nat → Str → Option Str
  | 0, _ => none
  | _ + 1, [] => reCapAt a p b []
  | fuel + 1, c :: rest =>
    match reCapAt a p b (c :: rest) with
    | some cap => some cap
    | none => reSearchCapGo a p b fuel rest

def reSearchCap (a : RE) (p : Char → Bool) (b : RE) (s : Str) : Option Str :=
  reSearchCapGo a p b (s.length + 1) s

/-!
## The URL regexes of `email_parser.py`
-/

/-- `{` (written via its code point to keep braces out of the source text). -/
def lbraceC : Char := Char.ofNat 123

/-- `}` -/
def rbraceC : Char := Char.ofNat 125

/-- Backtick. -/
def btickC : Char := Char.ofNat 96

/-- Single quote. -/
def squoteC : Char := Char.ofNat 39

/-- Python `re` class `\s` (ASCII part; modelled inputs are ASCII). -/
def reWs (c : Char) : Bool := pyWs c

/-- Body class of the URL regex in `src/newsletter_interface/email_parser.py`
line 22: every character except whitespace and `<>"{|}\^`[]`. -/
def urlBodyChar (c : Char) : Bool :=
  !(reWs c || c = '<' || c = '>' || c = '"' || c = lbraceC || c = '|' ||
    c = rbraceC || c = '\\' || c = '^' || c = btickC || c = '[' || c = ']')

/-- `https?://[^\s<>"{|}\\^`\[\]]+` -/
def urlRe : RE :=
  .seq (.lit "http".data) (.seq (.opt 's') (.seq (.lit "://".data) (.plusG urlBodyChar)))

/-- Body class of the URL regex in `src/gmail_fetcher/email_parser.py`
line 38.  That source line's character class reads, literally,
`[^\s<>"{\|}\\^`$begin:math:display$$end:math:display$]` — the `\[\]` of
the sibling module was mangled into the text `$begin:math:display$` /
`$end:math:display$`, so the class excludes `$`, `:` and the letters
b,e,g,i,n,m,a,t,h,d,s,p,l,y (and no longer excludes `[` or `]`). -/
def gfUrlBodyChar (c : Char) : Bool :=
  !(reWs c || c = '<' || c = '>' || c = '"' || c = lbraceC || c = '|' ||
    c = rbraceC || c = '\\' || c = '^' || c = btickC || c = '$' || c = ':' ||
    c = 'b' || c = 'e' || c = 'g' || c = 'i' || c = 'n' || c = 'm' ||
    c = 'a' || c = 't' || c = 'h' || c = 'd' || c = 's' || c = 'p' ||
    c = 'l' || c = 'y')

def gfUrlRe : RE :=
  .seq (.lit "http".data) (.seq (.opt 's') (.seq (.lit "://".data) (.plusG gfUrlBodyChar)))

/-- Python substring containment `pat in s`. -/
def subIn (pat : Str) : Str → Bool
  | [] => pat.isPrefixOf []
  | c :: rest => pat.isPrefixOf (c :: rest) || subIn pat rest

/-- The skip list shared by both `extract_urls` functions. -/
def skipDomains4 : List Str :=
  ["unsubscribe".data, "tracking".data, "pixel".data, "open.substack.com".data]

/-- `any(d in url.lower() for d in skip_domains)` -/
def hitsSkip (skips : List Str) (url : Str) : Bool :=
  skips.any (fun d => subIn d (pyLower url))

/-- `extract_urls` from `src/newsletter_interface/email_parser.py` lines
18-26: find all URL-regex matches, deduplicate (Python `set`; iteration
order is modelled by `List.dedup`), drop URLs hitting the skip list, keep
the first 10. -/
def extract_urls (content : Str) : List Str :=
  if content = [] then []
  else
    (((reFindAll urlRe content).dedup).filter (fun u => !hitsSkip skipDomains4 u)).take 10

/-- `extract_urls` from `src/gmail_fetcher/email_parser.py` lines 35-42:
identical except for the (mangled) URL regex. -/
def gfExtract_urls (content : Str) : List Str :=
  if content = [] then []
  else
    (((reFindAll gfUrlRe content).dedup).filter (fun u => !hitsSkip skipDomains4 u)).take 10

/-!
## `extract_primary_url` (`src/newsletter_interface/email_parser.py` 28-102)
-/

/-- Sequence a list of regex pieces. -/
def seqs (l : List RE) : RE := l.foldr RE.seq RE.eps

/-- `[^/]` -/
def notSlash (c : Char) : Bool := c != '/'

/-- `[^?\s<>"]` -/
def pEnd (c : Char) : Bool :=
  !(c = '?' || reWs c || c = '<' || c = '>' || c = '"')

/-- `[^>]` -/
def notGt (c : Char) : Bool := c != '>'

/-- `[^<]` -/
def notLt (c : Char) : Bool := c != '<'

/-- `["']` -/
def quoteC (c : Char) : Bool := c = '"' || c = squoteC

/-- `[^"']` : the capture class of the `href`/`canonical` groups. -/
def capCls (c : Char) : Bool := !(c = '"' || c = squoteC)

/-- `.` under `re.DOTALL`. -/
def anyC (_ : Char) : Bool := true

/-- `https://[^/]+\.substack\.com/p/[^?\s<>"]+` -/
def substackPat : RE :=
  seqs [.lit "https://".data, .plusG notSlash, .lit ".substack.com/p/".data, .plusG pEnd]

/-- `https://[^/]*medium\.com/[^?\s<>"]+` -/
def mediumPat : RE :=
  seqs [.lit "https://".data, .starG notSlash, .lit "medium.com/".data, .plusG pEnd]

/-- `https://[^/]+\.beehiiv\.com/p/[^?\s<>"]+` -/
def beehiivPat : RE :=
  seqs [.lit "https://".data, .plusG notSlash, .lit ".beehiiv.com/p/".data, .plusG pEnd]

/-- `https://[^/]+\.ck\.page/[^?\s<>"]+` -/
def ckPagePat : RE :=
  seqs [.lit "https://".data, .plusG notSlash, .lit ".ck.page/".data, .plusG pEnd]

/-- `https://[^/]+/[^?\s<>"]+` -/
def ghostOrgPat : RE :=
  seqs [.lit "https://".data, .plusG notSlash, .lit "/".data, .plusG pEnd]

/-- `https://[^/]+\.mailerlite\.com/[^?\s<>"]+` -/
def mailerlitePat : RE :=
  seqs [.lit "https://".data, .plusG notSlash, .lit ".mailerlite.com/".data, .plusG pEnd]

/-- `https://[^/]*medium\.com/@[^/]+/[^?\s<>"]+` -/
def mediumAtPat : RE :=
  seqs [.lit "https://".data, .starG notSlash, .lit "medium.com/@".data,
    .plusG notSlash, .lit "/".data, .plusG pEnd]

/-- `https://[^/]*medium\.com/[^/]+/[^?\s<>"]+` -/
def mediumSegPat : RE :=
  seqs [.lit "https://".data, .starG notSlash, .lit "medium.com/".data,
    .plusG notSlash, .lit "/".data, .plusG pEnd]

/-- `https://[^/]+\.ghost\.io/[^?\s<>"]+` -/
def ghostIoPat : RE :=
  seqs [.lit "https://".data, .plusG notSlash, .lit ".ghost.io/".data, .plusG pEnd]

/-- `domain_patterns` (source lines 49-57), in Python dict insertion order. -/
def domainPats : List (Str × RE) :=
  [("substack.com".data, substackPat),
   ("medium.com".data, mediumPat),
   ("substackcdn.com".data, substackPat),
   ("beehiiv.com".data, beehiivPat),
   ("convertkit.com".data, ckPagePat),
   ("ghost.org".data, ghostOrgPat),
   ("mailerlite.com".data, mailerlitePat)]

/-- `newsletter_patterns` (source lines 67-74). -/
def newsletterPats : List RE :=
  [substackPat, mediumAtPat, mediumSegPat, beehiivPat, ghostIoPat, ckPagePat]

/-- Pieces before the capture group of the canonical-link regex
`<link[^>]+rel=["']canonical["'][^>]+href=["']([^"']+)["']` (IGNORECASE). -/
def canonA : RE :=
  seqs [.litCI "<link".data, .plusG notGt, .litCI "rel=".data, .cls quoteC,
    .litCI "canonical".data, .cls quoteC, .plusG notGt, .litCI "href=".data,
    .cls quoteC]

/-- Piece after the capture group of the canonical-link regex. -/
def canonB : RE := .cls quoteC

/-- `(?:view.*?browser|read.*?online|view.*?web|open.*?browser)` -/
def anchorAlt : RE :=
  .alt (seqs [.litCI "view".data, .starL anyC, .litCI "browser".data])
    (.alt (seqs [.litCI "read".data, .starL anyC, .litCI "online".data])
      (.alt (seqs [.litCI "view".data, .starL anyC, .litCI "web".data])
        (seqs [.litCI "open".data, .starL anyC, .litCI "browser".data])))

/-- First browser pattern (source line 84), split around its capture group. -/
def browser1A : RE :=
  seqs [.litCI "<a".data, .plusG notGt, .litCI "href=".data, .cls quoteC]

def browser1B : RE :=
  seqs [.cls quoteC, .starG notGt, .lit ">".data, .starL anyC, anchorAlt]

/-- Second browser pattern (source line 85), split around its capture group. -/
def browser2A : RE :=
  seqs [.litCI "<a".data, .plusG notGt, .lit ">".data, .starL anyC, anchorAlt,
    .starL anyC, .litCI "</a>".data, .starG notLt, .litCI "href=".data,
    .cls quoteC]

def browser2B : RE := .cls quoteC

/-- `browser_patterns`, each as (pieces before group, group class, after). -/
def browserPats : List (RE × (Char → Bool) × RE) :=
  [(browser1A, capCls, browser1B), (browser2A, capCls, browser2B)]

/-- The extended skip list of `extract_primary_url` (source lines 45-46). -/
def skipDomains8 : List Str :=
  skipDomains4 ++ ["mailchi.mp".data, "constantcontact.com".data,
    "campaign-archive.com".data, "us-east-1.amazonaws.com".data]

/-- The social-media exclusion list of the fallback branch (line 99). -/
def socialDomains : List Str :=
  ["twitter.com".data, "facebook.com".data, "linkedin.com".data, "instagram.com".data]

/-- The `for domain, pattern in domain_patterns.items()` loop (lines 60-64):
for the first domain contained in the lowered sender email whose pattern
matches, return the first match. -/
def platformLoop : List (Str × RE) → Str → Str → Option Str
  | [], _, _ => none
  | (d, pat) :: rest, sender, content =>
    if subIn d (pyLower sender) then
      match reFindAll pat content with
      | [] => platformLoop rest sender content
      | u :: _ => some u
    else platformLoop rest sender content

/-- The `for pattern in newsletter_patterns` loop (lines 76-79). -/
def patLoop : List RE → Str → Option Str
  | [], _ => none
  | pat :: rest, content =>
    match reFindAll pat content with
    | [] => patLoop rest content
    | u :: _ => some u

/-- The `for pattern in browser_patterns` loop (lines 88-93): the first
matched href that does not hit the extended skip list. -/
def browserLoop : List (RE × (Char → Bool) × RE) → Str → Option Str
  | [], _ => none
  | (a, p, b) :: rest, html =>
    match reSearchCap a p b html with
    | some url => if !hitsSkip skipDomains8 url then some url else browserLoop rest html
    | none => browserLoop rest html

/-- First-match-wins chaining of the cascade's early returns. -/
def orO (a b : Option Str) : Option Str :=
  match a with
  | some v => some v
  | none => b

/-- `extract_primary_url` from `src/newsletter_interface/email_parser.py`
lines 28-102: canonical link tag, then platform-specific patterns keyed on
the sender's domain, then generic newsletter-platform patterns, then
"view in browser" links, then the first non-skip non-social URL. -/
def extract_primary_url (content_html content_plain sender_email : Str) : Str :=
  let content := if content_html ≠ [] then content_html else content_plain
  if content = [] then []
  else
    (orO (if content_html ≠ [] then reSearchCap canonA capCls canonB content_html else none)
      (orO (platformLoop domainPats sender_email content)
        (orO (patLoop newsletterPats content)
          (orO (if content_html ≠ [] then browserLoop browserPats content_html else none)
            ((reFindAll urlRe content).find?
              (fun u => !hitsSkip skipDomains8 u && !hitsSkip socialDomains u)))))).getD []

/-!
## `determine_newsletter_name` (`src/newsletter_interface/email_parser.py`
104-123, textually identical in `src/gmail_fetcher/email_parser.py` 44-62)
-/

/-- Python `s.split(pat)[0]`: the text before the first (case-sensitive)
occurrence of the substring `pat`, or all of `s` when `pat` does not occur. -/
def takeUntilSub (pat : Str) : Str → Str
  | [] => []
  | c :: r => if pat.isPrefixOf (c :: r) then [] else c :: takeUntilSub pat r

/-- Python `s.replace(pat, rep)`: replace all non-overlapping occurrences,
scanning left to right. -/
def pyReplaceSub (pat rep : Str) : Str → Str
  | [] => []
  | c :: r =>
    if pat ≠ [] ∧ pat.isPrefixOf (c :: r) then
      rep ++ pyReplaceSub pat rep (r.drop (pat.length - 1))
    else
      c :: pyReplaceSub pat rep r
termination_by s => s.length
decreasing_by
  · simp only [List.length_cons, List.length_drop]
    omega
  · simp only [List.length_cons]
    omega

/-- Python `s.replace(a, b)` for single characters. -/
def pyReplaceChar (a b : Char) (s : Str) : Str :=
  s.map (fun c => if c = a then b else c)

/-- Python `s.title()` (ASCII): uppercase each letter not preceded by a
letter, lowercase the other letters. -/
def pyTitleGo : Bool → Str → Str
  | _, [] => []
  | prev, c :: r =>
    (if c.isAlpha then (if prev then c.toLower else c.toUpper) else c)
      :: pyTitleGo c.isAlpha r

def pyTitle (s : Str) : Str := pyTitleGo false s

/-- The fixed provider-domain mapping (source lines 106-113), in Python dict
insertion order. -/
def nameMapping : List (Str × Str) :=
  [("substack.com".data, "Substack Newsletter".data),
   ("medium.com".data, "Medium".data),
   ("techcrunch.com".data, "TechCrunch".data),
   ("hackernewsletter.com".data, "Hacker News".data),
   ("morningbrew.com".data, "Morning Brew".data),
   ("thehustle.co".data, "The Hustle".data)]

def nlWord : Str := "newsletter".data

/-- `determine_newsletter_name`: first mapping entry whose domain is a
substring of the lowered sender email; else, if the lowered subject contains
"newsletter", the subject text before the first case-sensitive occurrence of
`"newsletter"`, stripped; else the sender's domain with `.com` removed, dots
replaced by spaces, title-cased; the raw sender email when it has no `'@'`
(the Python `split('@')[1]` raises and the bare `except` returns it). -/
def determine_newsletter_name (sender_email subject : Str) : Str :=
  match nameMapping.find? (fun pr => subIn pr.1 (pyLower sender_email)) with
  | some pr => pr.2
  | none =>
    if subIn nlWord (pyLower subject) then
      pyStripWs (takeUntilSub nlWord subject)
    else if '@' ∈ sender_email then
      pyTitle (pyReplaceChar '.' ' '
        (pyReplaceSub ".com".data [] (beforeChar '@' (afterChar '@' sender_email))))
    else sender_email

/-!
## `parse_gmail_message` (`src/gmail_fetcher/email_parser.py` 16-91)

The Gmail API message is a dict tree; `base64.urlsafe_b64decode(...).
decode('utf-8')` is an external library call and is abstracted as a `decode`
parameter.  Required dict keys (`id`, `threadId`, `payload`, its `headers`)
are structure fields; keys read with `.get` defaults are `Option` fields.
-/

structure Header where
  hname : Str
  hvalue : Str

inductive GPart where
  | mk (mimeType : Str) (bodyData : Option Str) (parts : List GPart)

/-- `{h['name']: h['value'] for h in ...}.get(n)`: on duplicate header names
the later entry wins. -/
def dictLast (hs : List Header) (n : Str) : Option Str :=
  (hs.reverse.find? (fun h => h.hname == n)).map (fun h => h.hvalue)

/-- `extract_content`'s recursive `extract_from_part`: accumulate decoded
`text/plain` and `text/html` data in depth-first preorder. -/
def extractPart (decode : Str → Str) : GPart → Str × Str
  | .mk mt bd parts =>
    let here : Str × Str :=
      if mt = "text/plain".data then
        (match bd with
         | some d => if d ≠ [] then decode d else []
         | none => [], [])
      else if mt = "text/html".data then
        ([], match bd with
             | some d => if d ≠ [] then decode d else []
             | none => [])
      else ([], [])
    parts.attach.foldl
      (fun acc sub =>
        let r := extractPart decode sub.1
        (acc.1 ++ r.1, acc.2 ++ r.2)) here
termination_by p => sizeOf p
decreasing_by
  have := List.sizeOf_lt_of_mem sub.2
  simp only [GPart.mk.sizeOf_spec]
  omega

structure GMsg where
  mid : Str
  threadId : Str
  headers : List Header
  payload : GPart
  internalDate : Option Nat
  labelIds : List Str
  snippet : Option Str

/-- The full-variant `NewsletterEmail` dataclass
(`src/gmail_fetcher/receive_email.py` lines 22-40). -/
structure NewsletterEmailGF where
  message_id : Str
  thread_id : Str
  subject : Str
  sender : Str
  sender_name : Str
  recipient : Str
  date : Str
  timestamp : Nat
  content_plain : Str
  content_html : Str
  newsletter_name : Str
  article_urls : List Str
  labels : List Str
  snippet : Str

def parse_gmail_message (decode : Str → Str) (m : GMsg) : NewsletterEmailGF :=
  let subject := (dictLast m.headers "Subject".data).getD "No Subject".data
  let sender := (dictLast m.headers "From".data).getD "Unknown".data
  let recipient := (dictLast m.headers "To".data).getD "Unknown".data
  let date_str := (dictLast m.headers "Date".data).getD []
  let sn_se := parse_sender sender
  let ts := (m.internalDate.getD 0) / 1000
  let ce := extractPart decode m.payload
  let article_urls := gfExtract_urls (if ce.2 ≠ [] then ce.2 else ce.1)
  let nname := determine_newsletter_name sn_se.2 subject
  let labels := m.labelIds.filter (fun l => !("Label_".data.isPrefixOf l))
  ⟨m.mid, m.threadId, subject, sn_se.2, sn_se.1, recipient, date_str, ts,
   ce.1, ce.2, nname, article_urls, labels, m.snippet.getD []⟩

/-!
## The exception behaviour of `parse_gmail_message`

`parse_gmail_message` has no `try`/`except`, and its `extract_content`
decodes with a strict `base64.urlsafe_b64decode(data).decode('utf-8')` (no
`errors='replace'`), so the Python function raises — rather than returning a
record — on a mapping missing a required key or carrying an undecodable text
payload.  `parse_gmail_messageE` embeds this faithfully: the decode
parameter is `Str → Option Str` (`none` models the raised exception), every
dict key the code indexes unconditionally is an `Option` field, and a raised
exception is the result `none`.
-/

/-- `extract_content`'s tree walk under the strict decode: a decode failure
on any text part's (non-empty) data aborts the whole walk, exactly as the
uncaught Python exception would. -/
def extractPartE (decode : Str → Option Str) : GPart → Option (Str × Str)
  | .mk mt bd parts =>
    let hereO : Option (Str × Str) :=
      if mt = "text/plain".data then
        match bd with
        | some d => if d ≠ [] then (decode d).map (fun t => (t, ([] : Str))) else some ([], [])
        | none => some ([], [])
      else if mt = "text/html".data then
        match bd with
        | some d => if d ≠ [] then (decode d).map (fun t => (([] : Str), t)) else some ([], [])
        | none => some ([], [])
      else some ([], [])
    parts.attach.foldl
      (fun accO sub =>
        match accO with
        | none => none
        | some a =>
          match extractPartE decode sub.1 with
          | none => none
          | some r => some (a.1 ++ r.1, a.2 ++ r.2)) hereO
termination_by p => sizeOf p
decreasing_by
  have := List.sizeOf_lt_of_mem sub.2
  simp only [GPart.mk.sizeOf_spec]
  omega

/-- The `message['payload']` dict: its `headers` key (indexed
unconditionally at line 65) and the MIME part tree. -/
structure GPayloadRaw where
  headers : Option (List Header)
  tree : GPart

/-- A Gmail message mapping with every unconditionally-indexed key
(`id`, `threadId`, `payload`, `payload['headers']`) optional, so malformed
mappings are representable. -/
structure GMsgRaw where
  mid : Option Str
  threadId : Option Str
  payload : Option GPayloadRaw
  internalDate : Option Nat
  labelIds : List Str
  snippet : Option Str

/-- `parse_gmail_message` with its exception behaviour: `none` is a raised
`KeyError` (missing `payload`, `headers`, `id` or `threadId`) or an
undecodable text payload.  The `id`/`threadId` lookups happen textually last
in the source, but everything before them is pure, so checking them after
content extraction is equivalent. -/
def parse_gmail_messageE (decode : Str → Option Str) (m : GMsgRaw) :
    Option NewsletterEmailGF :=
  match m.payload with
  | none => none
  | some pl =>
    match pl.headers with
    | none => none
    | some hs =>
      let subject := (dictLast hs "Subject".data).getD "No Subject".data
      let sender := (dictLast hs "From".data).getD "Unknown".data
      let recipient := (dictLast hs "To".data).getD "Unknown".data
      let date_str := (dictLast hs "Date".data).getD []
      let sn_se := parse_sender sender
      let ts := (m.internalDate.getD 0) / 1000
      match extractPartE decode pl.tree with
      | none => none
      | some ce =>
        match m.mid, m.threadId with
        | some mid, some tid =>
          some ⟨mid, tid, subject, sn_se.2, sn_se.1, recipient, date_str, ts,
            ce.1, ce.2, determine_newsletter_name sn_se.2 subject,
            gfExtract_urls (if ce.2 ≠ [] then ce.2 else ce.1),
            m.labelIds.filter (fun l => !("Label_".data.isPrefixOf l)),
            m.snippet.getD []⟩
        | _, _ => none

/-!
## `parse_gmail_raw_message` (`src/newsletter_interface/email_parser.py`
125-205)

The `base64` + `email.BytesParser` step is abstracted as a `parseMime`
parameter returning `none` when the library raises; part payloads are
modelled as their decoded text (the `decode(charset, errors='replace')`
call is total, so only payload presence matters).  `msg.walk()` over a
multipart message is modelled as the flattened part list.
-/

structure NIPart where
  ctype : Str
  payload : Option Str

inductive NIBody where
  | single : NIPart → NIBody
  | multi : List NIPart → NIBody

structure NIMime where
  subject : Option Str
  sender : Option Str
  date : Option Str
  body : NIBody

structure RawMessage where
  raw : Option Str
  msgId : Option Str
  internalDate : Option Nat
  snippet : Option Str

/-- The stripped-down `NewsletterEmail` dataclass
(`src/newsletter_interface/newsletter.py` lines 4-17). -/
structure NewsletterEmailNI where
  message_id : Str
  subject : Str
  sender : Str
  date : Str
  timestamp : Nat
  content_plain : Str
  newsletter_name : Str
  primary_url : Str
  snippet : Str

/-- `part.get_payload(decode=True)` followed by the replace-decoding: the
decoded text, empty when the payload is missing. -/
def partText (p : NIPart) : Str :=
  match p.payload with
  | some d => d
  | none => []

/-- One step of the `msg.walk()` loop: append a part's decoded text to the
accumulated `(content_plain, content_html)`. -/
def niStep (acc : Str × Str) (p : NIPart) : Str × Str :=
  if p.ctype = "text/plain".data then (acc.1 ++ partText p, acc.2)
  else if p.ctype = "text/html".data then (acc.1, acc.2 ++ partText p)
  else acc

/-- Accumulated `(content_plain, content_html)` of the message body. -/
def niContents : NIBody → Str × Str
  | .single p =>
    (if p.ctype = "text/plain".data then partText p else [],
     if p.ctype = "text/html".data then partText p else [])
  | .multi parts => parts.foldl niStep ([], [])

def niParts : NIBody → List NIPart
  | .single p => [p]
  | .multi ps => ps

/-- The minimal record built by the `except` branch (source lines 195-205). -/
def placeholderEmail (m : RawMessage) : NewsletterEmailNI :=
  ⟨m.msgId.getD "unknown".data, "Parse Error".data, "unknown".data, [], 0,
   [], "Unknown".data, [], m.snippet.getD []⟩

/-- Python `msg.get(key) or default` (empty string is also replaced). -/
def pyOrStr (o : Option Str) (d : Str) : Str :=
  match o with
  | some s => if s = [] then d else s
  | none => d

/-- `parse_gmail_raw_message`: total; any failure inside the `try` block
(missing `raw` key, MIME parse failure, missing `id` key) yields the
placeholder record.  The `id` lookup happens textually last in the source
but the code before it is pure, so checking it early is equivalent. -/
def parse_gmail_raw_message (parseMime : Str → Option NIMime) (m : RawMessage) :
    NewsletterEmailNI :=
  match m.raw with
  | none => placeholderEmail m
  | some raw =>
    match parseMime raw with
    | none => placeholderEmail m
    | some msg =>
      match m.msgId with
      | none => placeholderEmail m
      | some mid =>
        let subject := pyOrStr msg.subject "No Subject".data
        let sender := pyOrStr msg.sender "Unknown".data
        let date := pyOrStr msg.date []
        let se := (parse_sender sender).2
        let ts := (m.internalDate.getD 0) / 1000
        let cont := niContents msg.body
        ⟨mid, subject, se, date, ts, cont.1,
         determine_newsletter_name se subject,
         extract_primary_url cont.2 cont.1 se,
         m.snippet.getD []⟩

/-!
## `query_rag` (`src/gpt_interface/rag_api.py` 53-92)

The Flask request/response pair is modelled as: query-string arguments (a
list of key-value pairs, `args.get` returning the first match), the external
`query_rag_system` call as a function parameter, `datetime.now().isoformat()`
as a `now` parameter, and the JSON response as a status code plus an ordered
key-value body.  The chunk type is left abstract (its `score` float is never
inspected here).  The `except` branch (500) guards only external failures,
which the total function parameter cannot raise.
-/

inductive JBody (χ : Type) where
  | s : Str → JBody χ
  | b : Bool → JBody χ
  | chunks : List χ → JBody χ

structure RagResponse (χ : Type) where
  status : Nat
  body : List (Str × JBody χ)

/-- `request.args.get('user_query')`. -/
def lookupArg (args : List (Str × Str)) : Option Str :=
  (args.find? (fun pr => pr.1 == "user_query".data)).map (fun pr => pr.2)

def query_rag (χ : Type) (args : List (Str × Str)) (ragSystem : Str → List χ)
    (now : Str) : RagResponse χ :=
  match lookupArg args with
  | none =>
    ⟨400, [("error".data, .s "Missing required parameter: user_query".data)]⟩
  | some q =>
    if q = [] then
      ⟨400, [("error".data, .s "Missing required parameter: user_query".data)]⟩
    else
      match ragSystem q with
      | [] =>
        ⟨404, [("success".data, .b false),
               ("error".data, .s "No relevant context found".data),
               ("user_query".data, .s q)]⟩
      | c :: cs =>
        ⟨200, [("success".data, .b true),
               ("user_query".data, .s q),
               ("context".data, .chunks (c :: cs)),
               ("timestamp".data, .s now)]⟩

/-!
## `NewsletterRAGOrchestrator.full_pipeline` (`src/main.py` 33-110)

Gmail fetching, JSON saving and Qdrant storage are external effects; the
fetched list and the storage call are parameters, and the result records,
besides the returned statistics dict, whether the JSON-save and storage
steps were reached.
-/

structure StorageStats where
  stored : Nat
  skipped : Nat
  errors : Nat

structure PipelineStats where
  fetched : Nat
  stored : Nat
  skipped : Nat
  errors : Nat
  success : Bool

structure PipelineRun where
  stats : PipelineStats
  savedJson : Bool
  ranStorage : Bool

def full_pipeline {ν : Type} (newsletters : List ν) (saveJson : Bool)
    (store : List ν → StorageStats) : PipelineRun :=
  match newsletters with
  | [] => ⟨⟨0, 0, 0, 0, false⟩, false, false⟩
  | _ :: _ =>
    let st := store newsletters
    ⟨⟨newsletters.length, st.stored, st.skipped, st.errors,
      decide (0 < st.stored) || decide (0 < st.skipped)⟩, saveJson, true⟩

/-!
## `NewsletterQdrantStorage._create_documents_from_newsletters`
(`src/rag_pipeline/qdrant_storage.py` 109-151)

`datetime.now().isoformat()` is a `now` parameter.  The newsletter dicts
processed here come from the full-variant `NewsletterEmail.to_dict()`, so
all keys are present (fields of `NLDict`); Python falsy checks on
`content_html` and `article_urls` test emptiness.
-/

structure NLDict where
  message_id : Str
  thread_id : Str
  subject : Str
  sender : Str
  sender_name : Str
  recipient : Str
  date : Str
  timestamp : Nat
  content_plain : Str
  content_html : Str
  newsletter_name : Str
  article_urls : List Str
  labels : List Str
  snippet : Str

structure DocMeta where
  message_id : Str
  thread_id : Str
  subject : Str
  sender : Str
  sender_name : Str
  recipient : Str
  date : Str
  timestamp : Nat
  newsletter_name : Str
  article_urls : List Str
  labels : List Str
  snippet : Str
  content_type : Str
  content_length : Nat
  url_count : Nat
  processed_date : Str
  primary_url : Option Str

structure HDoc where
  content : Str
  meta : DocMeta

def buildDoc (now : Str) (n : NLDict) : HDoc :=
  let ct : Str × Str :=
    if n.content_html ≠ [] then (n.content_html, "html".data)
    else (n.content_plain, "plain".data)
  let content := if ct.1.length < 100 then n.subject ++ ". ".data ++ ct.1 else ct.1
  ⟨content,
   ⟨n.message_id, n.thread_id, n.subject, n.sender, n.sender_name, n.recipient,
    n.date, n.timestamp, n.newsletter_name, n.article_urls, n.labels, n.snippet,
    ct.2, content.length, n.article_urls.length, now,
    match n.article_urls with
    | u :: _ => some u
    | [] => none⟩⟩

def create_documents_from_newsletters (now : Str) (ns : List NLDict) : List HDoc :=
  ns.map (buildDoc now)

/-- No part of the Gmail payload tree carries body data. -/
def gpNoData : GPart → Bool
  | .mk _ bd parts =>
    (match bd with
     | none => true
     | some d => d.isEmpty) && parts.attach.all (fun s => gpNoData s.1)
termination_by g => sizeOf g
decreasing_by
  have := List.sizeOf_lt_of_mem s.2
  simp only [GPart.mk.sizeOf_spec]
  omega

lemma takeWhile_append_of_forall {p : Char → Bool} {xs ys : Str}
    (h : ∀ x ∈ xs, p x = true) :
    (xs ++ ys).takeWhile p = xs ++ ys.takeWhile p := by
  induction xs with
  | nil => simp
  | cons a l ih =>
    have ha : p a = true := h a (by simp)
    simp [List.takeWhile, ha, ih (fun x hx => h x (by simp [hx]))]

lemma takeWhile_neq_append {c : Char} {xs r : Str} (h : c ∉ xs) :
    (xs ++ c :: r).takeWhile (· != c) = xs := by
  have := @takeWhile_append_of_forall (· != c) xs (c :: r)
    (fun x hx => by simp; exact fun he => h (he ▸ hx))
  simp [List.takeWhile] at this ⊢
  simpa using this

lemma dropWhile_neq_append {c : Char} {xs r : Str} (h : c ∉ xs) :
    (xs ++ c :: r).dropWhile (· != c) = c :: r := by
  induction xs with
  | nil => simp [List.dropWhile]
  | cons a l ih =>
    have ha : (a != c) = true := by
      simp only [bne_iff_ne, ne_eq]
      exact fun he => h (by simp [he])
    simp only [List.cons_append, List.dropWhile, ha]
    exact ih (fun hm => h (by simp [hm]))

/-- C4, first half helper: on input `p ++ "<" ++ a ++ ">" ++ t` with `p`
free of `'<'` and `a` free of both brackets, the code returns the stripped
name and the trimmed address. -/
lemma parse_sender_bracketed (p a t : Str)
    (hp : '<' ∉ p) (ha1 : '<' ∉ a) (ha2 : '>' ∉ a) :
    parse_sender (p ++ '<' :: (a ++ '>' :: t))
      = (pyStripQuotes (pyStripWs p), pyStripWs a) := by
  have hmem1 : '<' ∈ p ++ '<' :: (a ++ '>' :: t) := by simp
  have hmem2 : '>' ∈ p ++ '<' :: (a ++ '>' :: t) := by simp
  have hafter : afterChar '<' (p ++ '<' :: (a ++ '>' :: t)) = a ++ '>' :: t := by
    simp [afterChar, dropWhile_neq_append hp]
  have hbefore : beforeChar '<' (p ++ '<' :: (a ++ '>' :: t)) = p := by
    simp [beforeChar, takeWhile_neq_append hp]
  have hinner : beforeChar '<' (a ++ '>' :: t)
      = a ++ '>' :: t.takeWhile (· != '<') := by
    have : ((a ++ '>' :: t).takeWhile (· != '<'))
        = a ++ ('>' :: t).takeWhile (· != '<') :=
      takeWhile_append_of_forall
        (fun x hx => by simp; exact fun he => ha1 (he ▸ hx))
    simp [beforeChar, this, List.takeWhile]
  have houter : beforeChar '>' (a ++ '>' :: t.takeWhile (· != '<')) = a :=
    takeWhile_neq_append ha2
  simp [parse_sender, hmem1, hmem2, hafter, hbefore, hinner, houter]

/-- C4: the sender parser splits `Name <addr>` into the name before the first
`'<'` (whitespace- and quote-stripped) and the trimmed address inside the
angle brackets; a sender with no angle brackets is returned unchanged as
both components. -/
theorem parse_sender_spec :
    (∀ p a t : Str, '<' ∉ p → '<' ∉ a → '>' ∉ a →
      parse_sender (p ++ '<' :: (a ++ '>' :: t))
        = (pyStripQuotes (pyStripWs p), pyStripWs a))
    ∧ (∀ s : Str, '<' ∉ s → '>' ∉ s → parse_sender s = (s, s)) := by
  constructor
  · exact parse_sender_bracketed
  · intro s h1 _
    simp [parse_sender, h1]

/-- Witness for `parse_sender_spec`: the spec's own example sender string,
and a bracket-free string. -/
theorem parse_sender_spec_witness :
    parse_sender ("Tech Digest ".data ++ '<' ::
        ("news@techdigest.substack.com".data ++ '>' :: []))
      = ("Tech Digest".data, "news@techdigest.substack.com".data)
    ∧ parse_sender "hello".data = ("hello".data, "hello".data) := by
  constructor
  · rw [parse_sender_spec.1 "Tech Digest ".data "news@techdigest.substack.com".data []
      (by decide) (by decide) (by decide)]
    decide
  · exact parse_sender_spec.2 "hello".data (by decide) (by decide)

lemma subIn_iff_infix (pat s : Str) : subIn pat s = true ↔ pat <:+: s := by
  induction s with
  | nil =>
    simp [subIn, List.isPrefixOf_iff_prefix, List.prefix_nil, List.infix_nil]
  | cons c rest ih =>
    simp [subIn, List.isPrefixOf_iff_prefix, ih, List.infix_cons_iff]

lemma dedup_filter_take_bounded (urls : List Str) :
    ((urls.dedup.filter (fun u => !hitsSkip skipDomains4 u)).take 10).length ≤ 10
    ∧ ((urls.dedup.filter (fun u => !hitsSkip skipDomains4 u)).take 10).Nodup
    ∧ ∀ u ∈ (urls.dedup.filter (fun u => !hitsSkip skipDomains4 u)).take 10,
        ∀ d ∈ skipDomains4, ¬ d <:+: pyLower u := by
  refine ⟨List.length_take_le _ _, ?_, ?_⟩
  · exact (List.take_sublist _ _).nodup
      (List.Nodup.filter _ (List.nodup_dedup _))
  · intro u hu d hd
    have hf := List.of_mem_filter (List.mem_of_mem_take hu)
    simp only [Bool.not_eq_eq_eq_not, Bool.not_true, hitsSkip,
      List.any_eq_false] at hf
    have := hf d hd
    rw [← subIn_iff_infix]
    simp [this]

/-- C3: for every content string, both `extract_urls` re-derivations (the
newsletter_interface one and the gmail_fetcher one) return at most 10 URLs,
with no duplicates, and none containing (case-insensitively) a skip-list
substring. -/
theorem extract_urls_bounded (content : Str) :
    ((extract_urls content).length ≤ 10
      ∧ (extract_urls content).Nodup
      ∧ ∀ u ∈ extract_urls content, ∀ d ∈ skipDomains4, ¬ d <:+: pyLower u)
    ∧ ((gfExtract_urls content).length ≤ 10
      ∧ (gfExtract_urls content).Nodup
      ∧ ∀ u ∈ gfExtract_urls content, ∀ d ∈ skipDomains4, ¬ d <:+: pyLower u) := by
  constructor
  · unfold extract_urls
    by_cases hc : content = []
    · simp [hc]
    · simp only [hc, if_neg, ite_false]
      exact dedup_filter_take_bounded (reFindAll urlRe content)
  · unfold gfExtract_urls
    by_cases hc : content = []
    · simp [hc]
    · simp only [hc, if_neg, ite_false]
      exact dedup_filter_take_bounded (reFindAll gfUrlRe content)

/-- C9 evidence: the two `extract_urls` re-derivations disagree.  The URL
regex in `src/gmail_fetcher/email_parser.py` line 38 contains the literal
mangled text `$begin:math:display$...$end:math:display$` in its character
class, so it cuts URLs at (among others) the letter `m`:
on `"https://x.com/a"` the gmail_fetcher variant returns `["https://x.co"]`
while the newsletter_interface variant returns the whole URL. -/
theorem extract_urls_variants_differ :
    gfExtract_urls "https://x.com/a".data = ["https://x.co".data]
    ∧ extract_urls "https://x.com/a".data = ["https://x.com/a".data]
    ∧ "https://x.com/a".data ∉ gfExtract_urls "https://x.com/a".data := by
  decide

lemma orO_eq_some {a b : Option Str} {v : Str} (h : orO a b = some v) :
    a = some v ∨ (a = none ∧ b = some v) := by
  cases a <;> simp_all [orO]

lemma platformLoop_sound :
    ∀ (l : List (Str × RE)) (sender content u : Str),
      platformLoop l sender content = some u →
      ∃ dp ∈ l, subIn dp.1 (pyLower sender) = true ∧ u ∈ reFindAll dp.2 content := by
  intro l
  induction l with
  | nil => intro _ _ _ h; simp [platformLoop] at h
  | cons hd rest ih =>
    intro sender content u h
    obtain ⟨d, pat⟩ := hd
    by_cases hdom : subIn d (pyLower sender) = true
    · rw [platformLoop, if_pos hdom] at h
      cases hfa : reFindAll pat content with
      | nil =>
        rw [hfa] at h
        obtain ⟨dp, hmem, hs⟩ := ih sender content u h
        exact ⟨dp, List.mem_cons_of_mem _ hmem, hs⟩
      | cons v vs =>
        rw [hfa] at h
        simp only [Option.some.injEq] at h
        exact ⟨(d, pat), List.mem_cons_self _ _, hdom, by rw [hfa, ← h]; simp⟩
    · rw [platformLoop, if_neg hdom] at h
      obtain ⟨dp, hmem, hs⟩ := ih sender content u h
      exact ⟨dp, List.mem_cons_of_mem _ hmem, hs⟩

lemma patLoop_sound :
    ∀ (l : List RE) (content u : Str),
      patLoop l content = some u → ∃ pat ∈ l, u ∈ reFindAll pat content := by
  intro l
  induction l with
  | nil => intro _ _ h; simp [patLoop] at h
  | cons pat rest ih =>
    intro content u h
    rw [patLoop] at h
    cases hfa : reFindAll pat content with
    | nil =>
      rw [hfa] at h
      obtain ⟨q, hmem, hs⟩ := ih content u h
      exact ⟨q, List.mem_cons_of_mem _ hmem, hs⟩
    | cons v vs =>
      rw [hfa] at h
      simp only [Option.some.injEq] at h
      exact ⟨pat, List.mem_cons_self _ _, by rw [hfa, ← h]; simp⟩

lemma browserLoop_sound :
    ∀ (l : List (RE × (Char → Bool) × RE)) (html u : Str),
      browserLoop l html = some u →
      hitsSkip skipDomains8 u = false
        ∧ ∃ bp ∈ l, reSearchCap bp.1 bp.2.1 bp.2.2 html = some u := by
  intro l
  induction l with
  | nil => intro _ _ h; simp [browserLoop] at h
  | cons hd rest ih =>
    intro html u h
    obtain ⟨a, p, b⟩ := hd
    rw [browserLoop] at h
    cases hsc : reSearchCap a p b html with
    | none =>
      rw [hsc] at h
      obtain ⟨hskip, q, hmem, hs⟩ := ih html u h
      exact ⟨hskip, q, List.mem_cons_of_mem _ hmem, hs⟩
    | some url =>
      rw [hsc] at h
      by_cases hsk : hitsSkip skipDomains8 url = false
      · simp only [hsk, Bool.not_false, if_pos, Option.some.injEq] at h
        subst h
        exact ⟨hsk, (a, p, b), List.mem_cons_self _ _, hsc⟩
      · simp only [Bool.not_eq_false] at hsk
        simp only [hsk, Bool.not_true, Bool.false_eq_true, if_false] at h
        obtain ⟨hskip, q, hmem, hs⟩ := ih html u h
        exact ⟨hskip, q, List.mem_cons_of_mem _ hmem, hs⟩

lemma extract_primary_url_empty (h p s : Str)
    (hcc : (if h ≠ [] then h else p) = []) :
    extract_primary_url h p s = [] := by
  rw [extract_primary_url]
  simp only [hcc, ite_true, if_pos]

lemma extract_primary_url_chain (h p s : Str)
    (hcc : (if h ≠ [] then h else p) ≠ []) :
    extract_primary_url h p s =
      (orO (if h ≠ [] then reSearchCap canonA capCls canonB h else none)
        (orO (platformLoop domainPats s (if h ≠ [] then h else p))
          (orO (patLoop newsletterPats (if h ≠ [] then h else p))
            (orO (if h ≠ [] then browserLoop browserPats h else none)
              ((reFindAll urlRe (if h ≠ [] then h else p)).find?
                (fun u => !hitsSkip skipDomains8 u && !hitsSkip socialDomains u)))))).getD [] := by
  rw [extract_primary_url]
  simp only [hcc, ite_false, if_neg, not_false_iff]

/-- C1 (amended): whenever `extract_primary_url` returns a non-empty string,
that string either is the canonical-link href of the HTML body, or is a
match of one of the sender-domain-keyed platform patterns, or a match of one
of the generic newsletter-platform patterns (these two branches apply no
skip-list filter), or is a "view in browser" href passing the extended
8-entry skip list, or is a general-extractor URL passing the extended skip
list and the social-media exclusion. -/
theorem extract_primary_url_provenance
    (content_html content_plain sender_email content r : Str)
    (hc : content = if content_html ≠ [] then content_html else content_plain)
    (hr : r = extract_primary_url content_html content_plain sender_email)
    (hne : r ≠ []) :
    (content_html ≠ [] ∧ reSearchCap canonA capCls canonB content_html = some r)
    ∨ (∃ dp ∈ domainPats, subIn dp.1 (pyLower sender_email) = true
        ∧ r ∈ reFindAll dp.2 content)
    ∨ (∃ pat ∈ newsletterPats, r ∈ reFindAll pat content)
    ∨ (content_html ≠ [] ∧ hitsSkip skipDomains8 r = false
        ∧ ∃ bp ∈ browserPats, reSearchCap bp.1 bp.2.1 bp.2.2 content_html = some r)
    ∨ (r ∈ reFindAll urlRe content ∧ hitsSkip skipDomains8 r = false
        ∧ hitsSkip socialDomains r = false) := by
  by_cases hcc : (if content_html ≠ [] then content_html else content_plain) = []
  · exact absurd (hr.trans (extract_primary_url_empty _ _ _ hcc)) hne
  · rw [extract_primary_url_chain _ _ _ hcc] at hr
    subst hc
    cases hchain : orO (if content_html ≠ [] then reSearchCap canonA capCls canonB content_html else none)
        (orO (platformLoop domainPats sender_email (if content_html ≠ [] then content_html else content_plain))
          (orO (patLoop newsletterPats (if content_html ≠ [] then content_html else content_plain))
            (orO (if content_html ≠ [] then browserLoop browserPats content_html else none)
              ((reFindAll urlRe (if content_html ≠ [] then content_html else content_plain)).find?
                (fun u => !hitsSkip skipDomains8 u && !hitsSkip socialDomains u))))) with
    | none => rw [hchain] at hr; exact absurd hr hne
    | some v =>
      rw [hchain] at hr
      simp only [Option.getD_some] at hr
      subst hr
      rcases orO_eq_some hchain with h1 | ⟨_, h2⟩
      · by_cases hh : content_html ≠ []
        · rw [if_pos hh] at h1
          exact Or.inl ⟨hh, h1⟩
        · rw [if_neg hh] at h1; cases h1
      rcases orO_eq_some h2 with h3 | ⟨_, h4⟩
      · obtain ⟨dp, hmem, hdom, hu⟩ := platformLoop_sound _ _ _ _ h3
        exact Or.inr (Or.inl ⟨dp, hmem, hdom, hu⟩)
      rcases orO_eq_some h4 with h5 | ⟨_, h6⟩
      · obtain ⟨pat, hmem, hu⟩ := patLoop_sound _ _ _ h5
        exact Or.inr (Or.inr (Or.inl ⟨pat, hmem, hu⟩))
      rcases orO_eq_some h6 with h7 | ⟨_, h8⟩
      · by_cases hh : content_html ≠ []
        · rw [if_pos hh] at h7
          obtain ⟨hskip, bp, hmem, hs⟩ := browserLoop_sound _ _ _ h7
          exact Or.inr (Or.inr (Or.inr (Or.inl ⟨hh, hskip, bp, hmem, hs⟩)))
        · rw [if_neg hh] at h7; cases h7
      · have hmem := List.mem_of_find?_eq_some h8
        have hpred := List.find?_some h8
        simp only [Bool.and_eq_true, Bool.not_eq_eq_eq_not, Bool.not_true] at hpred
        exact Or.inr (Or.inr (Or.inr (Or.inr ⟨hmem, hpred.1, hpred.2⟩)))

/-- C1 counterexample: with no HTML body, plain body
`"https://a.substack.com/p/unsubscribe"` and sender `"x@substack.com"`,
the resolver returns that URL via the platform-pattern branch, yet the URL
hits the `unsubscribe` skip entry, so the general extractor's candidate set
for the same content is empty, and there is no canonical tag (the HTML body
is empty) — refuting the claim that a non-empty primary URL is always drawn
from the filtered candidate set or a canonical tag. -/
theorem extract_primary_url_claim_counterexample :
    extract_primary_url [] "https://a.substack.com/p/unsubscribe".data "x@substack.com".data
      = "https://a.substack.com/p/unsubscribe".data
    ∧ "https://a.substack.com/p/unsubscribe".data ≠ ([] : Str)
    ∧ (reFindAll urlRe "https://a.substack.com/p/unsubscribe".data).filter
        (fun u => !hitsSkip skipDomains4 u) = []
    ∧ "https://a.substack.com/p/unsubscribe".data ∉
        extract_urls "https://a.substack.com/p/unsubscribe".data
    ∧ reSearchCap canonA capCls canonB [] = none := by
  decide

/-- Witness for `extract_primary_url_provenance` at a concrete input that
reaches the fallback branch. -/
theorem extract_primary_url_provenance_witness :
    "https://example.org/story".data ≠ ([] : Str)
    ∧ ((([] : Str) ≠ [] ∧ reSearchCap canonA capCls canonB []
          = some "https://example.org/story".data)
      ∨ (∃ dp ∈ domainPats, subIn dp.1 (pyLower "news@example.org".data) = true
          ∧ "https://example.org/story".data ∈ reFindAll dp.2 "https://example.org/story".data)
      ∨ (∃ pat ∈ newsletterPats,
          "https://example.org/story".data ∈ reFindAll pat "https://example.org/story".data)
      ∨ (([] : Str) ≠ [] ∧ hitsSkip skipDomains8 "https://example.org/story".data = false
          ∧ ∃ bp ∈ browserPats, reSearchCap bp.1 bp.2.1 bp.2.2 []
              = some "https://example.org/story".data)
      ∨ ("https://example.org/story".data ∈ reFindAll urlRe "https://example.org/story".data
          ∧ hitsSkip skipDomains8 "https://example.org/story".data = false
          ∧ hitsSkip socialDomains "https://example.org/story".data = false)) :=
  ⟨by decide,
    extract_primary_url_provenance [] "https://example.org/story".data
      "news@example.org".data "https://example.org/story".data
      "https://example.org/story".data (by decide) (by decide) (by decide)⟩

lemma takeUntilSub_of_not_infix (pat : Str) :
    ∀ s : Str, ¬ pat <:+: s → takeUntilSub pat s = s := by
  intro s
  induction s with
  | nil => intro _; rfl
  | cons c r ih =>
    intro hni
    rw [List.infix_cons_iff] at hni
    push_neg at hni
    have hp : pat.isPrefixOf (c :: r) = false := by
      rw [Bool.eq_false_iff]
      intro hb
      exact hni.1 (List.isPrefixOf_iff_prefix.mp hb)
    simp [takeUntilSub, hp, ih hni.2]

lemma takeUntilSub_first_occ (pat : Str) (hpat : pat ≠ []) :
    ∀ pre post : Str,
      (∀ i, i < pre.length → ¬ pat <+: ((pre ++ pat ++ post).drop i)) →
      takeUntilSub pat (pre ++ pat ++ post) = pre := by
  intro pre
  induction pre with
  | nil =>
    intro post _
    cases hp : pat with
    | nil => exact absurd hp hpat
    | cons p0 pt =>
      have hpre : pat.isPrefixOf (pat ++ post) = true :=
        List.isPrefixOf_iff_prefix.mpr (List.prefix_append _ _)
      rw [hp] at hpre
      simp only [List.nil_append, List.cons_append, hp]
      rw [takeUntilSub]
      simp only [List.cons_append] at hpre
      simp [hpre]
  | cons c pre' ih =>
    intro post hfirst
    have h0 := hfirst 0 (by simp)
    have hp : pat.isPrefixOf (c :: (pre' ++ pat ++ post)) = false := by
      rw [Bool.eq_false_iff]
      intro hb
      apply h0
      have := List.isPrefixOf_iff_prefix.mp hb
      simpa using this
    have htail := ih post (fun i hi => by
      have := hfirst (i + 1) (by simp; omega)
      simpa using this)
    simp only [List.cons_append, List.append_assoc] at hp ⊢
    rw [takeUntilSub]
    simp only [List.append_assoc] at htail
    simp [hp, htail]

/-- C2 (amended): when no mapping domain occurs in the lowered sender email
and the lowered subject contains `"newsletter"`, the function returns the
subject text before the first *case-sensitive* occurrence of the lowercase
word `"newsletter"`, stripped — which is the whole stripped subject when the
word occurs only in other capitalizations. -/
theorem determine_newsletter_name_amended (sender_email subject : Str)
    (hmap : ∀ pr ∈ nameMapping, subIn pr.1 (pyLower sender_email) = false)
    (hsub : subIn nlWord (pyLower subject) = true) :
    determine_newsletter_name sender_email subject
      = pyStripWs (takeUntilSub nlWord subject)
    ∧ (¬ nlWord <:+: subject → takeUntilSub nlWord subject = subject)
    ∧ (∀ pre post : Str, subject = pre ++ nlWord ++ post →
        (∀ i, i < pre.length → ¬ nlWord <+: (subject.drop i)) →
        takeUntilSub nlWord subject = pre) := by
  refine ⟨?_, takeUntilSub_of_not_infix nlWord subject, ?_⟩
  · have hfind : nameMapping.find? (fun pr => subIn pr.1 (pyLower sender_email)) = none := by
      rw [List.find?_eq_none]
      intro pr hpr
      simp [hmap pr hpr]
    rw [determine_newsletter_name, hfind]
    simp [hsub]
  · intro pre post heq hfirst
    subst heq
    exact takeUntilSub_first_occ nlWord (by decide) pre post hfirst

/-- Witness for `determine_newsletter_name_amended` on a subject containing
the word in lowercase. -/
theorem determine_newsletter_name_amended_witness :
    determine_newsletter_name "a@b.org".data "Weekly newsletter Digest".data
      = pyStripWs (takeUntilSub nlWord "Weekly newsletter Digest".data)
    ∧ determine_newsletter_name "a@b.org".data "Weekly newsletter Digest".data
      = "Weekly".data :=
  ⟨(determine_newsletter_name_amended "a@b.org".data "Weekly newsletter Digest".data
      (by decide) (by decide)).1, by decide⟩

/-- C2 counterexample: sender `"a@b.org"` matches no mapping entry, subject
`"Tech Newsletter"` contains "newsletter" case-insensitively, but since the
only occurrence is capitalized, the case-sensitive `split('newsletter')`
finds nothing and the function returns the whole subject `"Tech Newsletter"`
instead of the text `"Tech"` preceding the word. -/
theorem determine_newsletter_name_claim_counterexample :
    nameMapping.all (fun pr => !subIn pr.1 (pyLower "a@b.org".data)) = true
    ∧ subIn nlWord (pyLower "Tech Newsletter".data) = true
    ∧ determine_newsletter_name "a@b.org".data "Tech Newsletter".data
        = "Tech Newsletter".data
    ∧ pyStripWs "Tech ".data = "Tech".data
    ∧ "Tech Newsletter".data ≠ "Tech".data := by
  decide

lemma niStep_of_empty {p : NIPart} (acc : Str × Str) (hp : partText p = []) :
    niStep acc p = acc := by
  simp [niStep, hp]

lemma niContents_empty_of_no_payload :
    ∀ b : NIBody, (∀ p ∈ niParts b, partText p = []) → niContents b = ([], []) := by
  intro b hall
  cases b with
  | single p =>
    have hp := hall p (by simp [niParts])
    simp [niContents, hp]
  | multi ps =>
    simp only [niParts] at hall
    suffices h : ∀ acc : Str × Str, ps.foldl niStep acc = acc by
      simpa [niContents] using h ([], [])
    induction ps with
    | nil => intro acc; rfl
    | cons p rest ih =>
      intro acc
      have hp := hall p (by simp)
      have hrest := ih (fun q hq => hall q (by simp [hq]))
      rw [List.foldl_cons, niStep_of_empty acc hp, hrest]

lemma foldlE_parts_of_empty {β : Type} (f : β → Option (Str × Str)) :
    ∀ (l : List β), (∀ s ∈ l, f s = some ([], [])) →
      ∀ accO : Option (Str × Str),
        l.foldl (fun accO sub =>
          match accO with
          | none => none
          | some a =>
            match f sub with
            | none => none
            | some r => some (a.1 ++ r.1, a.2 ++ r.2)) accO = accO := by
  intro l hl
  induction l with
  | nil => intro accO; rfl
  | cons s rest ihl =>
    intro accO
    rw [List.foldl_cons]
    have hs := hl s (by simp)
    cases accO with
    | none => exact ihl (fun t ht => hl t (by simp [ht])) none
    | some a =>
      simp only [hs, List.append_nil]
      exact ihl (fun t ht => hl t (by simp [ht])) (some a)

lemma extractPartE_no_data (decode : Str → Option Str) :
    ∀ (n : Nat) (g : GPart), sizeOf g ≤ n → gpNoData g = true →
      extractPartE decode g = some ([], []) := by
  intro n
  induction n with
  | zero =>
    intro g hsz
    obtain ⟨mt, bd, parts⟩ := g
    simp only [GPart.mk.sizeOf_spec] at hsz
    omega
  | succ n ih =>
    intro g hsz hnd
    obtain ⟨mt, bd, parts⟩ := g
    rw [gpNoData.eq_def] at hnd
    simp only [Bool.and_eq_true, List.all_eq_true] at hnd
    obtain ⟨hbd, hparts⟩ := hnd
    have hchild : ∀ s : {x // x ∈ parts}, s ∈ parts.attach →
        extractPartE decode s.1 = some ([], []) := by
      intro s _
      have hlt : sizeOf s.1 < sizeOf (GPart.mk mt bd parts) := by
        simp only [GPart.mk.sizeOf_spec]
        have := List.sizeOf_lt_of_mem s.2
        omega
      exact ih s.1 (by omega) (hparts s (List.mem_attach _ _))
    cases bd with
    | none =>
      rw [extractPartE.eq_2]
      exact (foldlE_parts_of_empty (fun s : {x // x ∈ parts} => extractPartE decode s.1)
        parts.attach hchild _).trans (by simp)
    | some d =>
      simp only [List.isEmpty_iff] at hbd
      subst hbd
      rw [extractPartE.eq_1]
      exact (foldlE_parts_of_empty (fun s : {x // x ∈ parts} => extractPartE decode s.1)
        parts.attach hchild _).trans (by simp)

/-- C5 counterexample: the gmail_fetcher parser raises instead of returning
a record.  On an empty mapping the `message['payload']` lookup raises
`KeyError`; on a well-keyed message whose `text/plain` data the strict
base64 + UTF-8 decode rejects, the exception propagates out of
`extract_content` — in both cases the parser produces no `NewsletterEmail`
and no placeholder, refuting the never-raises claim. -/
theorem parse_gmail_message_claim_counterexample :
    parse_gmail_messageE (fun _ => none) ⟨none, none, none, none, [], none⟩ = none
    ∧ parse_gmail_messageE (fun _ => none)
        ⟨some "i".data, some "t".data,
         some ⟨some [], .mk "text/plain".data (some "qq".data) []⟩,
         none, [], none⟩ = none := by
  constructor
  · rfl
  · have hext : extractPartE (fun _ => none)
        (.mk "text/plain".data (some "qq".data) []) = none := by
      rw [extractPartE.eq_1]
      rfl
    simp only [parse_gmail_messageE, hext]

/-- C5 (amended): the newsletter_interface raw-message parser is total — on
a malformed message (missing `raw`, MIME parse failure, or missing `id`) it
returns the minimal placeholder record, and when no text part carries a
payload the accumulated bodies, hence the record's `content_plain`, are
empty strings.  The gmail_fetcher parser, by contrast, raises (result
`none`) when a required key (`payload`, `headers`) is missing or when the
strict decode fails on a text payload, and only when it succeeds do missing
text bodies yield empty content strings. -/
theorem parse_gmail_raw_message_robust
    (parseMime : Str → Option NIMime) (m : RawMessage) :
    ((m.raw = none ∨ (∃ r, m.raw = some r ∧ parseMime r = none) ∨ m.msgId = none) →
      parse_gmail_raw_message parseMime m = placeholderEmail m)
    ∧ (∀ msg : NIMime, (∀ p ∈ niParts msg.body, partText p = []) →
        niContents msg.body = ([], [])
        ∧ ∀ r mid, m.raw = some r → parseMime r = some msg → m.msgId = some mid →
            (parse_gmail_raw_message parseMime m).content_plain = [])
    ∧ (∀ (decode : Str → Option Str) (g : GMsgRaw),
        (g.payload = none ∨ (∃ pl, g.payload = some pl ∧ pl.headers = none)) →
        parse_gmail_messageE decode g = none)
    ∧ (∀ (decode : Str → Option Str) (g : GMsgRaw) (pl : GPayloadRaw) (hs : List Header),
        g.payload = some pl → pl.headers = some hs →
        extractPartE decode pl.tree = none →
        parse_gmail_messageE decode g = none)
    ∧ (∀ (decode : Str → Option Str) (g : GMsgRaw) (pl : GPayloadRaw)
          (hs : List Header) (mid tid : Str),
        g.payload = some pl → pl.headers = some hs →
        g.mid = some mid → g.threadId = some tid →
        gpNoData pl.tree = true →
        ∃ rec, parse_gmail_messageE decode g = some rec
          ∧ rec.content_plain = [] ∧ rec.content_html = []) := by
  refine ⟨?_, ?_, ?_, ?_, ?_⟩
  · rintro (hraw | ⟨r, hraw, hpm⟩ | hid)
    · simp only [parse_gmail_raw_message, hraw]
    · simp only [parse_gmail_raw_message, hraw, hpm]
    · simp only [parse_gmail_raw_message]
      cases hraw : m.raw with
      | none => rfl
      | some r =>
        cases hpm : parseMime r with
        | none => simp only [hpm]
        | some msg => simp only [hpm, hid]
  · intro msg hall
    have hc := niContents_empty_of_no_payload msg.body hall
    refine ⟨hc, ?_⟩
    intro r mid hraw hpm hid
    simp only [parse_gmail_raw_message, hraw, hpm, hid, hc]
  · rintro decode g (hp | ⟨pl, hp, hh⟩)
    · simp only [parse_gmail_messageE, hp]
    · simp only [parse_gmail_messageE, hp, hh]
  · intro decode g pl hs hp hh hext
    simp only [parse_gmail_messageE, hp, hh, hext]
  · intro decode g pl hs mid tid hp hh hmid htid hnd
    have hce := extractPartE_no_data decode (sizeOf pl.tree) pl.tree le_rfl hnd
    simp only [parse_gmail_messageE, hp, hh, hce, hmid, htid]
    exact ⟨_, rfl, rfl, rfl⟩

/-- Witness for `parse_gmail_raw_message_robust`: a raw message whose MIME
step fails yields the placeholder; a parsed raw message with an empty
multipart body yields empty content; a gmail_fetcher mapping without a
`payload` key makes the parser raise; a well-keyed gmail_fetcher message
with no part data parses with empty bodies. -/
theorem parse_gmail_raw_message_robust_witness :
    parse_gmail_raw_message (fun _ => none)
        ⟨some "x".data, some "1".data, none, none⟩
      = placeholderEmail ⟨some "x".data, some "1".data, none, none⟩
    ∧ (parse_gmail_raw_message (fun _ => some ⟨none, none, none, .multi []⟩)
        ⟨some [], some "1".data, some 5000, none⟩).content_plain = []
    ∧ parse_gmail_messageE (fun s => some s) ⟨none, none, none, none, [], none⟩ = none
    ∧ ∃ rec, parse_gmail_messageE (fun s => some s)
          ⟨some "i".data, some "t".data,
           some ⟨some [], .mk "multipart/alternative".data none []⟩,
           some 7, [], none⟩ = some rec
        ∧ rec.content_plain = [] ∧ rec.content_html = [] :=
  ⟨(parse_gmail_raw_message_robust (fun _ => none)
      ⟨some "x".data, some "1".data, none, none⟩).1
      (Or.inr (Or.inl ⟨"x".data, rfl, rfl⟩)),
   ((parse_gmail_raw_message_robust (fun _ => some ⟨none, none, none, .multi []⟩)
      ⟨some [], some "1".data, some 5000, none⟩).2.1
      ⟨none, none, none, .multi []⟩ (by simp [niParts])).2
      [] "1".data rfl rfl rfl,
   (parse_gmail_raw_message_robust (fun _ => none)
      ⟨some "x".data, some "1".data, none, none⟩).2.2.1
      (fun s => some s) ⟨none, none, none, none, [], none⟩ (Or.inl rfl),
   (parse_gmail_raw_message_robust (fun _ => none)
      ⟨some "x".data, some "1".data, none, none⟩).2.2.2.2
      (fun s => some s)
      ⟨some "i".data, some "t".data,
       some ⟨some [], .mk "multipart/alternative".data none []⟩,
       some 7, [], none⟩
      ⟨some [], .mk "multipart/alternative".data none []⟩ []
      "i".data "t".data rfl rfl rfl rfl
      (by rw [gpNoData.eq_def]; simp)⟩

/-- C7: the `timestamp` field of a parsed message equals `internalDate`
(milliseconds) floor-divided by 1000, and 0 when `internalDate` is absent —
for `parse_gmail_message` unconditionally and for `parse_gmail_raw_message`
on every successfully parsed message. -/
theorem parse_timestamp_spec (decode : Str → Str) (m : GMsg)
    (parseMime : Str → Option NIMime) (rm : RawMessage) :
    (parse_gmail_message decode m).timestamp = m.internalDate.getD 0 / 1000
    ∧ (∀ r msg mid, rm.raw = some r → parseMime r = some msg → rm.msgId = some mid →
        (parse_gmail_raw_message parseMime rm).timestamp
          = rm.internalDate.getD 0 / 1000) := by
  constructor
  · rfl
  · intro r msg mid hraw hpm hid
    simp only [parse_gmail_raw_message, hraw, hpm, hid]

/-- Witness for `parse_timestamp_spec`: `internalDate = 5001` gives
timestamp 5; an absent `internalDate` gives timestamp 0. -/
theorem parse_timestamp_spec_witness :
    (parse_gmail_message (fun s => s)
        ⟨"i".data, "t".data, [], .mk [] none [], some 5001, [], none⟩).timestamp = 5
    ∧ (parse_gmail_raw_message (fun _ => some ⟨none, none, none, .multi []⟩)
        ⟨some [], some "1".data, none, none⟩).timestamp = 0 :=
  ⟨(parse_timestamp_spec (fun s => s)
      ⟨"i".data, "t".data, [], .mk [] none [], some 5001, [], none⟩
      (fun _ => some ⟨none, none, none, .multi []⟩)
      ⟨some [], some "1".data, none, none⟩).1,
   (parse_timestamp_spec (fun s => s)
      ⟨"i".data, "t".data, [], .mk [] none [], some 5001, [], none⟩
      (fun _ => some ⟨none, none, none, .multi []⟩)
      ⟨some [], some "1".data, none, none⟩).2
      [] ⟨none, none, none, .multi []⟩ "1".data rfl rfl rfl⟩

/-- C6 (amended): the endpoint reads the query parameter `user_query` (not
`question`); a missing or empty parameter yields 400 with an `error` body;
an empty retrieval yields 404 with keys `success`, `error`, `user_query`;
a non-empty retrieval yields 200 with keys `success`, `user_query`,
`context`, `timestamp`. -/
theorem query_rag_spec (χ : Type) (args : List (Str × Str))
    (ragSystem : Str → List χ) (now : Str) :
    (lookupArg args = none →
      (query_rag χ args ragSystem now).status = 400
      ∧ (query_rag χ args ragSystem now).body.map Prod.fst = ["error".data])
    ∧ (∀ q, lookupArg args = some q → q = [] →
        (query_rag χ args ragSystem now).status = 400)
    ∧ (∀ q, lookupArg args = some q → q ≠ [] → ragSystem q = [] →
        (query_rag χ args ragSystem now).status = 404
        ∧ (query_rag χ args ragSystem now).body.map Prod.fst
            = ["success".data, "error".data, "user_query".data])
    ∧ (∀ q c cs, lookupArg args = some q → q ≠ [] → ragSystem q = c :: cs →
        (query_rag χ args ragSystem now).status = 200
        ∧ (query_rag χ args ragSystem now).body.map Prod.fst
            = ["success".data, "user_query".data, "context".data, "timestamp".data]) := by
  refine ⟨?_, ?_, ?_, ?_⟩
  · intro h
    simp [query_rag, h]
  · intro q hq hqe
    simp [query_rag, hq, hqe]
  · intro q hq hqe hrag
    simp [query_rag, hq, hqe, hrag]
  · intro q c cs hq hqe hrag
    simp [query_rag, hq, hqe, hrag]

/-- Witness for `query_rag_spec`: no arguments gives 400; a present
`user_query` gives 200 when context is found and 404 when it is not. -/
theorem query_rag_spec_witness :
    (query_rag Unit [] (fun _ => [()]) []).status = 400
    ∧ (query_rag Unit [("user_query".data, "hi".data)]
        (fun _ => [()]) []).status = 200
    ∧ (query_rag Unit [("user_query".data, "hi".data)]
        (fun _ => []) []).status = 404 :=
  ⟨((query_rag_spec Unit [] (fun _ => [()]) []).1 rfl).1,
   ((query_rag_spec Unit [("user_query".data, "hi".data)] (fun _ => [()]) []).2.2.2
      "hi".data () [] rfl (by decide) rfl).1,
   ((query_rag_spec Unit [("user_query".data, "hi".data)] (fun _ => []) []).2.2.1
      "hi".data rfl (by decide) rfl).1⟩

/-- C6 counterexample: a request supplying the parameter under the name
`question` (with context available) is answered 400 with only an `error`
key, and even the successful response keys use `user_query`, never
`question` — refuting the claimed parameter and key names. -/
theorem query_rag_claim_counterexample :
    (query_rag Unit [("question".data, "hi".data)] (fun _ => [()]) []).status = 400
    ∧ (query_rag Unit [("question".data, "hi".data)]
        (fun _ => [()]) []).body.map Prod.fst = ["error".data]
    ∧ "question".data ∉
        (query_rag Unit [("user_query".data, "hi".data)]
          (fun _ => [()]) []).body.map Prod.fst := by
  refine ⟨rfl, rfl, ?_⟩
  decide

/-- C8: with zero fetched newsletters the pipeline returns exactly
`{fetched: 0, stored: 0, skipped: 0, errors: 0, success: false}` and reaches
neither the JSON-save step nor the storage step. -/
theorem full_pipeline_empty_fetch {ν : Type} (saveJson : Bool)
    (store : List ν → StorageStats) :
    full_pipeline ([] : List ν) saveJson store
      = ⟨⟨0, 0, 0, 0, false⟩, false, false⟩ := rfl

lemma buildDoc_primary_url (now : Str) (n : NLDict) :
    (buildDoc now n).meta.primary_url = n.article_urls.head? := by
  rw [buildDoc]
  cases n.article_urls <;> rfl

/-- C10: the document builder sets each document's `primary_url` metadata to
the head of the newsletter's `article_urls` list (`None` when the list is
empty); the primary-URL resolver cascade is not involved. -/
theorem create_documents_primary_url (now : Str) (ns : List NLDict) :
    (create_documents_from_newsletters now ns).map (fun d => d.meta.primary_url)
      = ns.map (fun n => n.article_urls.head?) := by
  rw [create_documents_from_newsletters, List.map_map]
  exact List.map_congr_left (fun n _ => buildDoc_primary_url now n)

/-- Witness for `extract_urls_bounded` at a concrete content string. -/
theorem extract_urls_bounded_witness :
    ((extract_urls "https://a.com and https://tracking.b.com".data).length ≤ 10
      ∧ (extract_urls "https://a.com and https://tracking.b.com".data).Nodup
      ∧ ∀ u ∈ extract_urls "https://a.com and https://tracking.b.com".data,
          ∀ d ∈ skipDomains4, ¬ d <:+: pyLower u)
    ∧ ((gfExtract_urls "https://a.com and https://tracking.b.com".data).length ≤ 10
      ∧ (gfExtract_urls "https://a.com and https://tracking.b.com".data).Nodup
      ∧ ∀ u ∈ gfExtract_urls "https://a.com and https://tracking.b.com".data,
          ∀ d ∈ skipDomains4, ¬ d <:+: pyLower u) :=
  extract_urls_bounded "https://a.com and https://tracking.b.com".data
